import Mathlib

/-!
Shallow embedding of the kraken-dca decision engine (`src/krakendca/dca.py`)
and proofs of the specification claims about it.

Conventions of the embedding:
* Python floats appearing in the engine's comparisons and arithmetic are
  modelled as exact rationals (`ℚ`).
* Timestamps and time differences are integers: microseconds for datetime
  subtraction (mirroring Python `timedelta` resolution), unix seconds for
  the order-window computation.
* Exceptions become `Except DCAError`; the effectful steps of one
  invocation (API queries, submission, persistence) are recorded as an
  event trace, so that "X happens before Y" and "X never happens" claims
  are statements about the produced trace.
* Dictionaries are association lists (`List (String × OrderInfo)`), and
  the account balance is a partial map `String → Option ℚ` (a `none`
  models a currency key absent from the Kraken response).
-/

namespace KrakenDCA

/-- The `.seconds` attribute of a Python `timedelta` holding `t`
microseconds.  Python normalizes a delta to `days`, `seconds`,
`microseconds` with `0 ≤ seconds < 86400` and `0 ≤ microseconds < 10^6`
(`days` absorbs the sign), so `.seconds` is the euclidean remainder of the
total microseconds by a day, divided down to whole seconds. -/
def timedeltaSeconds (t : ℤ) : ℤ :=
  (t % 86400000000) / 1000000

/-- Errors raised by the engine.  `dca.py` raises plain `OSError` /
`ValueError`; the spec names them `ClockSkewError`, `InsufficientFundsError`,
`OrderTooSmallError`, `SubmissionError`.  Payloads record the values the
corresponding Python message interpolates. -/
inductive DCAError where
  | clockSkew : DCAError
  | insufficientFunds (amount : ℚ) (quote base : String) : DCAError
  | orderTooSmall (volume order_min : ℚ) : DCAError
  | submissionFailed : DCAError
  deriving DecidableEq

/-- Whether an error is the insufficient-funds one. -/
def DCAError.isInsufficientFunds : DCAError → Bool
  | .insufficientFunds _ _ _ => true
  | _ => false

/-- `DCA.get_system_time` (dca.py:84-100): compares Kraken and system time
and raises when `(current_date - kraken_date).seconds > 1`.
`driftMicros` is the local time minus the exchange time, in microseconds. -/
def get_system_time (driftMicros : ℤ) : Except DCAError Unit :=
  if timedeltaSeconds driftMicros > 1 then .error .clockSkew else .ok ()

/-- Immutable trading-pair configuration (`krakendca/pair.py` fields read
by `dca.py`). -/
structure Pair where
  name : String
  alt_name : String
  base : String
  quote : String
  lot_decimals : ℕ
  quote_decimals : ℕ
  order_min : ℚ
  deriving DecidableEq

/-- Python `float(balance.get(cur))` wrapped in `try/except TypeError`:
a missing key makes `balance.get` return `None`, `float(None)` raises
`TypeError`, and the handler substitutes `0` (dca.py:113-120). -/
def balanceOrZero (balance : String → Option ℚ) (cur : String) : ℚ :=
  match balance cur with
  | none => 0
  | some v => v

/-- `DCA.check_account_balance` (dca.py:102-127): fetches the aggregate
trade balance (printed only), the per-currency balances, normalizes the
missing base/quote keys to zero, and raises iff the quote balance is below
the configured amount.  `tradeBalance` is the `"eb"` entry of
`get_trade_balance()`. -/
def check_account_balance (pair : Pair) (amount : ℚ)
    (tradeBalance : Option ℚ) (balance : String → Option ℚ) :
    Except DCAError Unit :=
  let _trade_balance := tradeBalance
  let _pair_base_balance := balanceOrZero balance pair.base
  let pair_quote_balance := balanceOrZero balance pair.quote
  if pair_quote_balance < amount then
    .error (.insufficientFunds amount pair.quote pair.base)
  else
    .ok ()

/-- The slice of a Kraken order record read by the engine:
`order_infos.get("descr").get("pair")` (dca.py:168-169). -/
structure OrderInfo where
  descr_pair : String
  deriving DecidableEq

/-- `DCA.extract_pair_orders` (dca.py:154-171): keep the entries whose
`descr.pair` equals either the pair name or its alternate name.  The
Python dict is modelled as an association list. -/
def extract_pair_orders (orders : List (String × OrderInfo))
    (pair pair_alt_name : String) : List (String × OrderInfo) :=
  orders.filter (fun o =>
    o.2.descr_pair == pair || o.2.descr_pair == pair_alt_name)

/-- `DCA.count_pair_daily_orders` (dca.py:129-152).  `get_closed_orders`
is the external API taking the `start` unix timestamp of the query (the
`closetime: "open"` filter is server side); `current_utc_day_unix` is the
unix time of the start of the current UTC day, and `delay` the configured
recurrence in days.  `timedelta(days = delay - 1)` subtracts
`(delay - 1) * 86400` seconds. -/
def count_pair_daily_orders (pair : Pair) (delay : ℤ)
    (open_orders : List (String × OrderInfo))
    (get_closed_orders : ℤ → List (String × OrderInfo))
    (current_utc_day_unix : ℤ) : ℕ :=
  let daily_open_orders :=
    (extract_pair_orders open_orders pair.name pair.alt_name).length
  let start_day_unix := current_utc_day_unix - (delay - 1) * 86400
  let closed_orders := get_closed_orders start_day_unix
  let daily_closed_orders :=
    (extract_pair_orders closed_orders pair.name pair.alt_name).length
  daily_closed_orders + daily_open_orders

/-- Modelled from the spec: `Order.buy_limit_order` lives in
`krakendca/order.py`, which is not among the provided sources.  Per the
spec, the order volume is `quote_amount / ask_price` truncated (rounded
down) to `lot_decimals` decimal places; only the volume is needed by the
claims, so the other `Order` fields are not modelled. -/
def order_volume (amount pair_ask_price : ℚ) (lot_decimals : ℕ) : ℚ :=
  (⌊amount / pair_ask_price * 10 ^ lot_decimals⌋ : ℚ) / 10 ^ lot_decimals

/-- Observable effects of one invocation, in the order they happen. -/
inductive Event where
  | queryTime : Event
  | queryTradeBalance : Event
  | queryBalance : Event
  | queryOpenOrders : Event
  | queryClosedOrders : Event
  | fetchPrice : Event
  | submit : Event
  | persist : Event
  deriving DecidableEq

/-- The engine configuration held by the `DCA` object (dca.py:24-44). -/
structure DCA where
  delay : ℤ
  pair : Pair
  amount : ℚ

/-- The external world one invocation interacts with: the responses of
the Kraken API collaborator and whether order submission succeeds. -/
structure Env where
  driftMicros : ℤ
  tradeBalance : Option ℚ
  balance : String → Option ℚ
  open_orders : List (String × OrderInfo)
  get_closed_orders : ℤ → List (String × OrderInfo)
  current_utc_day_unix : ℤ
  pair_ask_price : ℚ
  submitOk : Bool

/-- `DCA.send_buy_limit_order` (dca.py:173-193): raise when the order
volume is below the pair minimum (before any exchange call), otherwise
call `order.send_order`, whose failure propagates.  Returns the events of
this step and the outcome. -/
def send_buy_limit_order (pair : Pair) (volume : ℚ) (submitOk : Bool) :
    List Event × Except DCAError Unit :=
  if volume < pair.order_min then
    ([], .error (.orderTooSmall volume pair.order_min))
  else if submitOk then
    ([Event.submit], .ok ())
  else
    ([Event.submit], .error .submissionFailed)

/-- `DCA.handle_dca_logic` (dca.py:49-82): clock check, balance check,
window order count; when the count is zero, fetch the ask price, build
the order, submit it, and persist it to the CSV file.  A raised exception
aborts the rest of the invocation. -/
def handle_dca_logic (dca : DCA) (env : Env) :
    List Event × Except DCAError Unit :=
  match get_system_time env.driftMicros with
  | .error e => ([Event.queryTime], .error e)
  | .ok _ =>
    match check_account_balance dca.pair dca.amount env.tradeBalance env.balance with
    | .error e =>
      ([Event.queryTime, Event.queryTradeBalance, Event.queryBalance], .error e)
    | .ok _ =>
      if count_pair_daily_orders dca.pair dca.delay env.open_orders
          env.get_closed_orders env.current_utc_day_unix = 0 then
        match send_buy_limit_order dca.pair
            (order_volume dca.amount env.pair_ask_price dca.pair.lot_decimals)
            env.submitOk with
        | (evs2, .error e) =>
          ([Event.queryTime, Event.queryTradeBalance, Event.queryBalance,
            Event.queryOpenOrders, Event.queryClosedOrders]
            ++ Event.fetchPrice :: evs2, .error e)
        | (evs2, .ok _) =>
          ([Event.queryTime, Event.queryTradeBalance, Event.queryBalance,
            Event.queryOpenOrders, Event.queryClosedOrders]
            ++ Event.fetchPrice :: (evs2 ++ [Event.persist]), .ok ())
      else
        ([Event.queryTime, Event.queryTradeBalance, Event.queryBalance,
          Event.queryOpenOrders, Event.queryClosedOrders], .ok ())

/-- The event sequence of a fully successful invocation; every possible
trace is a prefix of it. -/
def fullEventSequence : List Event :=
  [Event.queryTime, Event.queryTradeBalance, Event.queryBalance,
   Event.queryOpenOrders, Event.queryClosedOrders,
   Event.fetchPrice, Event.submit, Event.persist]

/-- The `daily_pair_orders` value computed inside `handle_dca_logic`
(dca.py:61). -/
def daily_pair_orders (dca : DCA) (env : Env) : ℕ :=
  count_pair_daily_orders dca.pair dca.delay env.open_orders
    env.get_closed_orders env.current_utc_day_unix

/-- The volume of the order constructed inside `handle_dca_logic`
(dca.py:68-75). -/
def invocation_volume (dca : DCA) (env : Env) : ℚ :=
  order_volume dca.amount env.pair_ask_price dca.pair.lot_decimals

/-- A concrete pair configuration (Kraken's XBT/USD pair), used to
evaluate the theorems on concrete inputs. -/
def samplePair : Pair :=
  { name := "XXBTZUSD", alt_name := "XBTUSD", base := "XXBT", quote := "ZUSD",
    lot_decimals := 8, quote_decimals := 1, order_min := 1 / 10000 }

/-- A concrete engine configuration: daily recurrence, 50 quote units. -/
def sampleDCA : DCA :=
  { delay := 1, pair := samplePair, amount := 50 }

/-- A concrete pair with only 2 lot decimals and a 0.01 minimum, the
spec's undersized-order scenario. -/
def samplePairCoarse : Pair :=
  { samplePair with lot_decimals := 2, order_min := 1 / 100 }

/-- A concrete orders dictionary with one matching (by alt name) and one
non-matching entry. -/
def sampleOrders : List (String × OrderInfo) :=
  [("OAAAA", { descr_pair := "XBTUSD" }),
   ("OBBBB", { descr_pair := "XETHZUSD" })]

/-- A concrete environment in which every check passes, no order of the
pair exists in the window, and submission succeeds. -/
def sampleEnvOk : Env :=
  { driftMicros := 0
    tradeBalance := some 1000
    balance := fun c => if c == "ZUSD" then some 100 else none
    open_orders := []
    get_closed_orders := fun _ => []
    current_utc_day_unix := 1700006400
    pair_ask_price := 20000
    submitOk := true }

/-- A concrete environment whose quote balance (10) is below the
configured amount (50). -/
def sampleEnvPoor : Env :=
  { sampleEnvOk with balance := fun c => if c == "ZUSD" then some 10 else none }

/-- A concrete environment in which a matching open order already exists
in the window. -/
def sampleEnvAlready : Env :=
  { sampleEnvOk with open_orders := sampleOrders }

end KrakenDCA

namespace KrakenDCA

/-- The clock check passes exactly when the Python `.seconds` field of
the drift is at most 1. -/
lemma get_system_time_pass_iff (d : ℤ) :
    get_system_time d = .ok () ↔ timedeltaSeconds d ≤ 1 := by
  unfold get_system_time
  split
  · rename_i h
    constructor
    · intro hc
      cases hc
    · intro hle
      omega
  · rename_i h
    constructor
    · intro _
      omega
    · intro _
      rfl

/-- The only error the clock check raises is the clock-skew one. -/
lemma get_system_time_error_eq (d : ℤ) (e : DCAError) :
    get_system_time d = .error e → e = .clockSkew := by
  unfold get_system_time
  split
  · intro h
    cases h
    rfl
  · intro h
    cases h

/-- The balance check as a single conditional. -/
lemma check_account_balance_eq (pair : Pair) (amount : ℚ) (tb : Option ℚ)
    (b : String → Option ℚ) :
    check_account_balance pair amount tb b
      = if balanceOrZero b pair.quote < amount
        then .error (.insufficientFunds amount pair.quote pair.base)
        else .ok () := by
  simp only [check_account_balance]

/-- The only error the balance check raises is the insufficient-funds
one, and it is raised only when the quote balance is short. -/
lemma check_account_balance_error_eq (pair : Pair) (amount : ℚ) (tb : Option ℚ)
    (b : String → Option ℚ) (e : DCAError) :
    check_account_balance pair amount tb b = .error e →
      e = .insufficientFunds amount pair.quote pair.base
      ∧ balanceOrZero b pair.quote < amount := by
  rw [check_account_balance_eq]
  split
  · rename_i h
    intro he
    cases he
    exact ⟨rfl, h⟩
  · intro he
    cases he

/-- C2.  The claim: the clock-synchronization check passes iff the drift
`d` between exchange and local time satisfies `|d| ≤ 1` second.  The code
instead tests `(current_date - kraken_date).seconds > 1`, and the Python
`.seconds` field is the day-remainder, not the absolute total: a drift of
−0.5 s (exchange ahead of the engine) has `.seconds = 86399` and raises,
although `|d| ≤ 1 s`, while a drift of +1.9 s has `.seconds = 1` and
passes, although `|d| > 1 s`.  Drifts are in microseconds. -/
theorem C2_get_system_time_code_bug :
    get_system_time (-500000) = .error DCAError.clockSkew
    ∧ (-500000 : ℤ).natAbs ≤ 1000000
    ∧ get_system_time 1900000 = .ok ()
    ∧ 1000000 < (1900000 : ℤ).natAbs :=
  ⟨rfl, by norm_num, rfl, by norm_num⟩

/-- C3.  The balance check raises (the insufficient-funds error, and only
it) iff the quote balance — with a missing key normalized to 0, likewise
for the base key — is below the configured amount; otherwise it returns
without effect. -/
theorem C3_check_account_balance_spec (pair : Pair) (amount : ℚ)
    (tb : Option ℚ) (b : String → Option ℚ) :
    ((∃ e, check_account_balance pair amount tb b = .error e)
        ↔ balanceOrZero b pair.quote < amount)
    ∧ (∀ e, check_account_balance pair amount tb b = .error e →
        e = DCAError.insufficientFunds amount pair.quote pair.base)
    ∧ (b pair.quote = none → balanceOrZero b pair.quote = 0)
    ∧ (b pair.base = none → balanceOrZero b pair.base = 0)
    ∧ (¬ balanceOrZero b pair.quote < amount →
        check_account_balance pair amount tb b = .ok ()) := by
  refine ⟨⟨?_, ?_⟩, ?_, ?_, ?_, ?_⟩
  · rintro ⟨e, he⟩
    exact (check_account_balance_error_eq pair amount tb b e he).2
  · intro hq
    exact ⟨_, by rw [check_account_balance_eq, if_pos hq]⟩
  · intro e he
    exact (check_account_balance_error_eq pair amount tb b e he).1
  · intro h
    unfold balanceOrZero
    rw [h]
  · intro h
    unfold balanceOrZero
    rw [h]
  · intro hq
    rw [check_account_balance_eq, if_neg hq]

/-- Witness for C3 at a concrete input: with no balance entry at all, the
quote balance is normalized to 0 and the check raises. -/
theorem C3_check_account_balance_spec_witness :
    balanceOrZero (fun _ => none) "ZUSD" = 0
    ∧ (∃ e, check_account_balance samplePair 50 none (fun _ => none) = .error e) :=
  ⟨(C3_check_account_balance_spec samplePair 50 none (fun _ => none)).2.2.1 rfl,
   (C3_check_account_balance_spec samplePair 50 none (fun _ => none)).1.mpr
     (by norm_num [balanceOrZero])⟩

/-- C9.  Noninterference of everything but the quote balance: two runs of
the balance check whose balance maps agree on the quote currency have the
same outcome, whatever the aggregate trade balance, the base-currency
entry, or any other entry. -/
theorem C9_check_account_balance_quote_only (pair : Pair) (amount : ℚ)
    (tb1 tb2 : Option ℚ) (b1 b2 : String → Option ℚ)
    (h : b1 pair.quote = b2 pair.quote) :
    check_account_balance pair amount tb1 b1
      = check_account_balance pair amount tb2 b2 := by
  rw [check_account_balance_eq, check_account_balance_eq]
  unfold balanceOrZero
  rw [h]

/-- Witness for C9 at concrete inputs: one account also holds 7 of every
other currency and reports a different trade balance, yet the outcomes
agree. -/
theorem C9_check_account_balance_quote_only_witness :
    check_account_balance samplePair 50 (some 1000) (fun _ => some 100)
      = check_account_balance samplePair 50 none
          (fun c => if c == "ZUSD" then some 100 else some 7) :=
  C9_check_account_balance_quote_only samplePair 50 (some 1000) none
    (fun _ => some 100) (fun c => if c == "ZUSD" then some 100 else some 7)
    (by simp [samplePair])

/-- C4.  The window order count is the number of open orders matching the
pair (by name or alternate name) plus the number of matching closed
orders returned by the window query, whose start is the start of the
current UTC day minus `(delay - 1)` days. -/
theorem C4_count_pair_daily_orders_spec (pair : Pair) (delay : ℤ)
    (open_orders : List (String × OrderInfo))
    (get_closed : ℤ → List (String × OrderInfo)) (day_unix : ℤ) :
    count_pair_daily_orders pair delay open_orders get_closed day_unix
      = open_orders.countP
          (fun o => decide (o.2.descr_pair = pair.name
            ∨ o.2.descr_pair = pair.alt_name))
        + (get_closed (day_unix - (delay - 1) * 86400)).countP
          (fun o => decide (o.2.descr_pair = pair.name
            ∨ o.2.descr_pair = pair.alt_name)) := by
  have hp : ∀ o : String × OrderInfo,
      (o.2.descr_pair == pair.name || o.2.descr_pair == pair.alt_name)
        = decide (o.2.descr_pair = pair.name ∨ o.2.descr_pair = pair.alt_name) := by
    intro o
    by_cases h1 : o.2.descr_pair = pair.name <;>
      by_cases h2 : o.2.descr_pair = pair.alt_name <;>
        simp [h1, h2]
  simp only [count_pair_daily_orders, extract_pair_orders,
    List.countP_eq_length_filter, hp]
  exact Nat.add_comm _ _

/-- C5.  The order volume is `amount / ask_price` truncated to
`lot_decimals` places: it is nonnegative, a multiple of
`10 ^ (-lot_decimals)`, never exceeds `amount / ask_price`, and is the
greatest such value. -/
theorem C5_order_volume_spec (amount ask : ℚ) (d : ℕ)
    (h1 : 0 < amount) (h2 : 0 < ask) :
    order_volume amount ask d ≤ amount / ask
    ∧ 0 ≤ order_volume amount ask d
    ∧ (∃ n : ℤ, order_volume amount ask d = (n : ℚ) / 10 ^ d)
    ∧ (∀ w : ℚ, (∃ m : ℤ, w = (m : ℚ) / 10 ^ d) → w ≤ amount / ask →
        w ≤ order_volume amount ask d) := by
  have hpow : (0 : ℚ) < 10 ^ d := by positivity
  refine ⟨?_, ?_, ⟨⌊amount / ask * 10 ^ d⌋, rfl⟩, ?_⟩
  · unfold order_volume
    rw [div_le_iff₀ hpow]
    exact Int.floor_le _
  · unfold order_volume
    apply div_nonneg _ hpow.le
    exact_mod_cast Int.floor_nonneg.mpr (by positivity)
  · rintro w ⟨m, rfl⟩ hw
    unfold order_volume
    have hm : (m : ℚ) ≤ amount / ask * 10 ^ d := (div_le_iff₀ hpow).mp hw
    have hfl : m ≤ ⌊amount / ask * 10 ^ d⌋ := Int.le_floor.mpr hm
    gcongr

/-- Witness for C5 at the spec's scenario: amount 50, ask 20000,
8 lot decimals give a volume within `amount / ask` and nonnegative. -/
theorem C5_order_volume_spec_witness :
    order_volume 50 20000 8 ≤ 50 / 20000 ∧ 0 ≤ order_volume 50 20000 8 :=
  ⟨(C5_order_volume_spec 50 20000 8 (by norm_num) (by norm_num)).1,
   (C5_order_volume_spec 50 20000 8 (by norm_num) (by norm_num)).2.1⟩

/-- C10.  Pair filtering returns a sub-map of its input — every returned
entry occurs, unmodified, in the input, and the result is a sublist of
the input (so nothing is added) — and it is idempotent. -/
theorem C10_extract_pair_orders_submap_idem
    (orders : List (String × OrderInfo)) (pair alt : String) :
    (∀ x ∈ extract_pair_orders orders pair alt, x ∈ orders)
    ∧ List.Sublist (extract_pair_orders orders pair alt) orders
    ∧ extract_pair_orders (extract_pair_orders orders pair alt) pair alt
        = extract_pair_orders orders pair alt := by
  refine ⟨?_, ?_, ?_⟩
  · intro x hx
    exact List.mem_of_mem_filter hx
  · exact List.filter_sublist _
  · unfold extract_pair_orders
    apply List.filter_eq_self.mpr
    intro a ha
    exact (List.mem_filter.mp ha).2

/-- Witness for C10 at a concrete input: the matching entry of the sample
orders dictionary belongs to the input; filtering twice equals filtering
once. -/
theorem C10_extract_pair_orders_submap_idem_witness :
    ("OAAAA", ({ descr_pair := "XBTUSD" } : OrderInfo)) ∈ sampleOrders
    ∧ extract_pair_orders (extract_pair_orders sampleOrders "XXBTZUSD" "XBTUSD")
        "XXBTZUSD" "XBTUSD"
      = extract_pair_orders sampleOrders "XXBTZUSD" "XBTUSD" :=
  ⟨(C10_extract_pair_orders_submap_idem sampleOrders "XXBTZUSD" "XBTUSD").1
      ("OAAAA", { descr_pair := "XBTUSD" }) (by decide),
   (C10_extract_pair_orders_submap_idem sampleOrders "XXBTZUSD" "XBTUSD").2.2⟩

/-- Submission when the volume is below the pair minimum: the too-small
error, and no event. -/
lemma send_buy_limit_order_eq_too_small (pair : Pair) (vol : ℚ) (ok : Bool)
    (h : vol < pair.order_min) :
    send_buy_limit_order pair vol ok
      = ([], .error (.orderTooSmall vol pair.order_min)) := by
  unfold send_buy_limit_order
  rw [if_pos h]

/-- Submission of a large-enough order that succeeds. -/
lemma send_buy_limit_order_eq_sent (pair : Pair) (vol : ℚ)
    (h : ¬ vol < pair.order_min) :
    send_buy_limit_order pair vol true = ([Event.submit], .ok ()) := by
  unfold send_buy_limit_order
  rw [if_neg h]
  rfl

/-- Submission of a large-enough order that the exchange call fails on. -/
lemma send_buy_limit_order_eq_failed (pair : Pair) (vol : ℚ)
    (h : ¬ vol < pair.order_min) :
    send_buy_limit_order pair vol false
      = ([Event.submit], .error .submissionFailed) := by
  unfold send_buy_limit_order
  rw [if_neg h]
  rfl

/-- Full case analysis of one invocation: `handle_dca_logic` has exactly
six reachable outcomes, and in each of them the produced event trace and
result are fully determined. -/
lemma handle_dca_logic_cases (dca : DCA) (env : Env) :
    (handle_dca_logic dca env = ([Event.queryTime], .error .clockSkew)
      ∧ get_system_time env.driftMicros = .error .clockSkew)
    ∨ (handle_dca_logic dca env
        = ([Event.queryTime, Event.queryTradeBalance, Event.queryBalance],
           .error (.insufficientFunds dca.amount dca.pair.quote dca.pair.base))
      ∧ get_system_time env.driftMicros = .ok ()
      ∧ check_account_balance dca.pair dca.amount env.tradeBalance env.balance
          = .error (.insufficientFunds dca.amount dca.pair.quote dca.pair.base))
    ∨ (handle_dca_logic dca env
        = ([Event.queryTime, Event.queryTradeBalance, Event.queryBalance,
            Event.queryOpenOrders, Event.queryClosedOrders], .ok ())
      ∧ get_system_time env.driftMicros = .ok ()
      ∧ check_account_balance dca.pair dca.amount env.tradeBalance env.balance
          = .ok ()
      ∧ daily_pair_orders dca env ≠ 0)
    ∨ (handle_dca_logic dca env
        = ([Event.queryTime, Event.queryTradeBalance, Event.queryBalance,
            Event.queryOpenOrders, Event.queryClosedOrders, Event.fetchPrice],
           .error (.orderTooSmall (invocation_volume dca env) dca.pair.order_min))
      ∧ get_system_time env.driftMicros = .ok ()
      ∧ check_account_balance dca.pair dca.amount env.tradeBalance env.balance
          = .ok ()
      ∧ daily_pair_orders dca env = 0
      ∧ invocation_volume dca env < dca.pair.order_min)
    ∨ (handle_dca_logic dca env
        = ([Event.queryTime, Event.queryTradeBalance, Event.queryBalance,
            Event.queryOpenOrders, Event.queryClosedOrders, Event.fetchPrice,
            Event.submit], .error .submissionFailed)
      ∧ get_system_time env.driftMicros = .ok ()
      ∧ check_account_balance dca.pair dca.amount env.tradeBalance env.balance
          = .ok ()
      ∧ daily_pair_orders dca env = 0
      ∧ ¬ invocation_volume dca env < dca.pair.order_min
      ∧ env.submitOk = false)
    ∨ (handle_dca_logic dca env = (fullEventSequence, .ok ())
      ∧ get_system_time env.driftMicros = .ok ()
      ∧ check_account_balance dca.pair dca.amount env.tradeBalance env.balance
          = .ok ()
      ∧ daily_pair_orders dca env = 0
      ∧ ¬ invocation_volume dca env < dca.pair.order_min
      ∧ env.submitOk = true) := by
  unfold handle_dca_logic
  cases hclock : get_system_time env.driftMicros with
  | error e =>
    have he := get_system_time_error_eq env.driftMicros e hclock
    subst he
    exact Or.inl ⟨rfl, rfl⟩
  | ok u =>
    cases u
    cases hbal : check_account_balance dca.pair dca.amount env.tradeBalance
        env.balance with
    | error e =>
      obtain ⟨he, -⟩ := check_account_balance_error_eq dca.pair dca.amount
        env.tradeBalance env.balance e hbal
      subst he
      exact Or.inr (Or.inl ⟨rfl, rfl, rfl⟩)
    | ok u =>
      cases u
      by_cases hcount : count_pair_daily_orders dca.pair dca.delay
          env.open_orders env.get_closed_orders env.current_utc_day_unix = 0
      · rw [if_pos hcount]
        by_cases hvol : order_volume dca.amount env.pair_ask_price
            dca.pair.lot_decimals < dca.pair.order_min
        · rw [send_buy_limit_order_eq_too_small dca.pair _ env.submitOk hvol]
          exact Or.inr (Or.inr (Or.inr (Or.inl ⟨rfl, rfl, rfl, hcount, hvol⟩)))
        · cases hsub : env.submitOk with
          | false =>
            rw [send_buy_limit_order_eq_failed dca.pair _ hvol]
            exact Or.inr (Or.inr (Or.inr (Or.inr (Or.inl
              ⟨rfl, rfl, rfl, hcount, hvol, rfl⟩))))
          | true =>
            rw [send_buy_limit_order_eq_sent dca.pair _ hvol]
            exact Or.inr (Or.inr (Or.inr (Or.inr (Or.inr
              ⟨rfl, rfl, rfl, hcount, hvol, rfl⟩))))
      · rw [if_neg hcount]
        exact Or.inr (Or.inr (Or.inl ⟨rfl, rfl, rfl, hcount⟩))

/-- C1.  When the clock and balance checks pass, an order is submitted
iff the window order count is zero and the computed volume reaches the
pair minimum; a nonzero count gives a normal return after only the query
steps, with no price fetch, no submission and no persistence. -/
theorem C1_handle_dca_logic_submit_iff (dca : DCA) (env : Env)
    (hclock : get_system_time env.driftMicros = .ok ())
    (hbal : check_account_balance dca.pair dca.amount env.tradeBalance
      env.balance = .ok ()) :
    (Event.submit ∈ (handle_dca_logic dca env).1
      ↔ (daily_pair_orders dca env = 0
         ∧ dca.pair.order_min ≤ invocation_volume dca env))
    ∧ (daily_pair_orders dca env ≠ 0 →
        handle_dca_logic dca env
          = ([Event.queryTime, Event.queryTradeBalance, Event.queryBalance,
              Event.queryOpenOrders, Event.queryClosedOrders], .ok ())
        ∧ Event.fetchPrice ∉ (handle_dca_logic dca env).1
        ∧ Event.submit ∉ (handle_dca_logic dca env).1
        ∧ Event.persist ∉ (handle_dca_logic dca env).1) := by
  rcases handle_dca_logic_cases dca env with
    ⟨h, hc⟩ | ⟨h, hc, hb⟩ | ⟨h, hc, hb, hcount⟩ | ⟨h, hc, hb, hcount, hvol⟩ |
    ⟨h, hc, hb, hcount, hvol, hsub⟩ | ⟨h, hc, hb, hcount, hvol, hsub⟩
  · rw [hclock] at hc
    cases hc
  · rw [hbal] at hb
    cases hb
  · constructor
    · rw [h]
      simp [hcount]
    · intro _
      refine ⟨h, ?_, ?_, ?_⟩ <;> rw [h] <;> decide
  · constructor
    · rw [h]
      simp [hcount, not_le.mpr hvol]
    · intro hne
      exact absurd hcount hne
  · constructor
    · rw [h]
      simp [hcount, not_lt.mp hvol]
    · intro hne
      exact absurd hcount hne
  · constructor
    · rw [h]
      simp [hcount, not_lt.mp hvol, fullEventSequence]
    · intro hne
      exact absurd hcount hne

/-- Helps evaluate the model at the all-checks-pass sample input. -/
lemma handle_sampleEnvOk_eval :
    handle_dca_logic sampleDCA sampleEnvOk = (fullEventSequence, .ok ()) := by
  have hvol : order_volume 50 20000 8 = 1 / 400 := by
    unfold order_volume
    norm_num
  have hmin : ¬ (order_volume 50 20000 8 < 10000⁻¹) := by
    rw [hvol]
    norm_num
  have h100 : ¬ ((100 : ℚ) < 50) := by norm_num
  simp [handle_dca_logic, get_system_time, check_account_balance,
    count_pair_daily_orders, extract_pair_orders, send_buy_limit_order,
    sampleDCA, sampleEnvOk, samplePair, balanceOrZero, timedeltaSeconds,
    fullEventSequence, hmin, h100]

/-- Witness for C1 at a concrete input: with synchronized clocks, a
sufficient balance, no prior order in the window and a large enough
volume, the submission event occurs. -/
theorem C1_handle_dca_logic_submit_iff_witness :
    Event.submit ∈ (handle_dca_logic sampleDCA sampleEnvOk).1 :=
  ((C1_handle_dca_logic_submit_iff sampleDCA sampleEnvOk rfl rfl).1).mpr
    ⟨rfl, by
      show samplePair.order_min ≤ order_volume 50 20000 8
      unfold samplePair order_volume
      norm_num⟩

/-- C6.  An order whose volume is below the pair minimum makes submission
raise the too-small error carrying both the computed volume and the
minimum; no event is produced — in particular the order is not sent to
the exchange and nothing is adjusted or retried. -/
theorem C6_send_buy_limit_order_too_small (pair : Pair) (volume : ℚ)
    (submitOk : Bool) (h : volume < pair.order_min) :
    send_buy_limit_order pair volume submitOk
      = ([], .error (DCAError.orderTooSmall volume pair.order_min))
    ∧ Event.submit ∉ (send_buy_limit_order pair volume submitOk).1 := by
  have he := send_buy_limit_order_eq_too_small pair volume submitOk h
  refine ⟨he, ?_⟩
  rw [he]
  simp

/-- Witness for C6 at the spec's scenario: amount 1 at ask 50000 with two
lot decimals truncates to volume 0, below the 0.01 minimum. -/
theorem C6_send_buy_limit_order_too_small_witness :
    send_buy_limit_order samplePairCoarse (order_volume 1 50000 2) true
      = ([], .error (DCAError.orderTooSmall (order_volume 1 50000 2)
          samplePairCoarse.order_min)) :=
  (C6_send_buy_limit_order_too_small samplePairCoarse (order_volume 1 50000 2)
    true (by
      show order_volume 1 50000 2 < samplePairCoarse.order_min
      unfold samplePairCoarse samplePair order_volume
      norm_num)).1

/-- If an element heads the `a`-cell of two decompositions of the same
list and `a` occurs in neither remainder, the decompositions agree. -/
lemma append_cons_eq_of_not_mem {α : Type} {a : α} {s t l1 l2 : List α}
    (hs : a ∉ s) (ht : a ∉ t) (h : s ++ a :: t = l1 ++ a :: l2) :
    s = l1 ∧ t = l2 := by
  induction s generalizing l1 with
  | nil =>
    cases l1 with
    | nil =>
      simp only [List.nil_append] at h
      cases h
      exact ⟨rfl, rfl⟩
    | cons b l1 =>
      simp only [List.nil_append, List.cons_append] at h
      injection h with h1 h2
      exfalso
      apply ht
      rw [h2]
      simp
  | cons c s ih =>
    cases l1 with
    | nil =>
      simp only [List.cons_append, List.nil_append] at h
      injection h with h1 h2
      exact absurd (h1 ▸ List.mem_cons_self c s) hs
    | cons b l1 =>
      simp only [List.cons_append] at h
      injection h with h1 h2
      have hs' : a ∉ s := fun hm => hs (List.mem_cons_of_mem c hm)
      obtain ⟨rfl, rfl⟩ := ih hs' h2
      exact ⟨h1 ▸ rfl, rfl⟩

/-- C7.  Persistence happens iff the submission call was made and
succeeded; a persisted invocation ended without error; and in any trace
decomposition placing the persistence event, the submission event lies
strictly before it. -/
theorem C7_handle_dca_logic_persist_iff (dca : DCA) (env : Env) :
    (Event.persist ∈ (handle_dca_logic dca env).1
      ↔ (Event.submit ∈ (handle_dca_logic dca env).1 ∧ env.submitOk = true))
    ∧ (Event.persist ∈ (handle_dca_logic dca env).1 →
        (handle_dca_logic dca env).2 = .ok ())
    ∧ (∀ l1 l2, (handle_dca_logic dca env).1 = l1 ++ Event.persist :: l2 →
        Event.submit ∈ l1) := by
  have hnosub : ∀ (tr : List Event) (res : Except DCAError Unit),
      handle_dca_logic dca env = (tr, res) → Event.persist ∉ tr →
      (∀ l1 l2, (handle_dca_logic dca env).1 = l1 ++ Event.persist :: l2 →
        Event.submit ∈ l1) := by
    intro tr res hh hnp l1 l2 heq
    rw [hh] at heq
    have heq2 : tr = l1 ++ Event.persist :: l2 := heq
    exfalso
    apply hnp
    rw [heq2]
    simp
  rcases handle_dca_logic_cases dca env with
    ⟨h, hc⟩ | ⟨h, hc, hb⟩ | ⟨h, hc, hb, hcount⟩ | ⟨h, hc, hb, hcount, hvol⟩ |
    ⟨h, hc, hb, hcount, hvol, hsub⟩ | ⟨h, hc, hb, hcount, hvol, hsub⟩
  · exact ⟨by rw [h]; simp, by rw [h]; simp, hnosub _ _ h (by decide)⟩
  · exact ⟨by rw [h]; simp, by rw [h]; simp, hnosub _ _ h (by decide)⟩
  · exact ⟨by rw [h]; simp, by rw [h]; simp, hnosub _ _ h (by decide)⟩
  · exact ⟨by rw [h]; simp, by rw [h]; simp, hnosub _ _ h (by decide)⟩
  · refine ⟨by rw [h, hsub]; simp, by rw [h]; simp, hnosub _ _ h (by decide)⟩
  · refine ⟨by rw [h, hsub]; simp [fullEventSequence], by rw [h]; simp, ?_⟩
    intro l1 l2 heq
    rw [h] at heq
    simp only [fullEventSequence] at heq
    have heq2 : [Event.queryTime, Event.queryTradeBalance, Event.queryBalance,
        Event.queryOpenOrders, Event.queryClosedOrders, Event.fetchPrice,
        Event.submit] ++ Event.persist :: ([] : List Event)
        = l1 ++ Event.persist :: l2 := heq
    obtain ⟨rfl, rfl⟩ :=
      append_cons_eq_of_not_mem (by decide) (by decide) heq2
    decide

/-- Witness for C7 at a concrete input: in the successful sample run the
trace decomposes around the persistence event with the submission event
in the left part. -/
theorem C7_handle_dca_logic_persist_iff_witness :
    Event.submit ∈ [Event.queryTime, Event.queryTradeBalance,
      Event.queryBalance, Event.queryOpenOrders, Event.queryClosedOrders,
      Event.fetchPrice, Event.submit] :=
  (C7_handle_dca_logic_persist_iff sampleDCA sampleEnvOk).2.2
    [Event.queryTime, Event.queryTradeBalance, Event.queryBalance,
     Event.queryOpenOrders, Event.queryClosedOrders, Event.fetchPrice,
     Event.submit] []
    (by rw [handle_sampleEnvOk_eval]; rfl)

/-- C8.  Every trace is a prefix of the canonical
clock → trade balance → balance → open orders → closed orders → price →
submit → persist sequence (so the checks run in that fixed order), and an
invocation that raises the insufficient-funds error performed neither
order-count query. -/
theorem C8_handle_dca_logic_check_order (dca : DCA) (env : Env) :
    (∃ t, (handle_dca_logic dca env).1 ++ t = fullEventSequence)
    ∧ (∀ e, (handle_dca_logic dca env).2 = .error e →
        e.isInsufficientFunds = true →
        Event.queryOpenOrders ∉ (handle_dca_logic dca env).1
        ∧ Event.queryClosedOrders ∉ (handle_dca_logic dca env).1) := by
  rcases handle_dca_logic_cases dca env with
    ⟨h, hc⟩ | ⟨h, hc, hb⟩ | ⟨h, hc, hb, hcount⟩ | ⟨h, hc, hb, hcount, hvol⟩ |
    ⟨h, hc, hb, hcount, hvol, hsub⟩ | ⟨h, hc, hb, hcount, hvol, hsub⟩
  · refine ⟨⟨[Event.queryTradeBalance, Event.queryBalance,
      Event.queryOpenOrders, Event.queryClosedOrders, Event.fetchPrice,
      Event.submit, Event.persist], by rw [h]; rfl⟩, ?_⟩
    intro e he hins
    rw [h] at he
    simp at he
    subst he
    simp [DCAError.isInsufficientFunds] at hins
  · refine ⟨⟨[Event.queryOpenOrders, Event.queryClosedOrders,
      Event.fetchPrice, Event.submit, Event.persist], by rw [h]; rfl⟩, ?_⟩
    intro e he hins
    rw [h]
    exact ⟨by simp, by simp⟩
  · refine ⟨⟨[Event.fetchPrice, Event.submit, Event.persist],
      by rw [h]; rfl⟩, ?_⟩
    intro e he hins
    rw [h] at he
    simp at he
  · refine ⟨⟨[Event.submit, Event.persist], by rw [h]; rfl⟩, ?_⟩
    intro e he hins
    rw [h] at he
    simp at he
    subst he
    simp [DCAError.isInsufficientFunds] at hins
  · refine ⟨⟨[Event.persist], by rw [h]; rfl⟩, ?_⟩
    intro e he hins
    rw [h] at he
    simp at he
    subst he
    simp [DCAError.isInsufficientFunds] at hins
  · refine ⟨⟨[], by rw [h]; rfl⟩, ?_⟩
    intro e he hins
    rw [h] at he
    simp at he

/-- Witness for C8 at a concrete input: with a quote balance of 10
against an amount of 50, the insufficient-funds invocation queried
neither open nor closed orders. -/
theorem C8_handle_dca_logic_check_order_witness :
    Event.queryOpenOrders ∉ (handle_dca_logic sampleDCA sampleEnvPoor).1
    ∧ Event.queryClosedOrders ∉ (handle_dca_logic sampleDCA sampleEnvPoor).1 :=
  (C8_handle_dca_logic_check_order sampleDCA sampleEnvPoor).2
    (DCAError.insufficientFunds 50 "ZUSD" "XXBT") rfl rfl

end KrakenDCA
